import Mathlib

/-!
Shallow embedding of the governance-state emulator of
`dexon-consensus` (`core/test/state.go`).

External collaborators (keccak hash, ECDSA key parsing, the RLP codec,
DKG record types) are consumed through interfaces by the source; they are
modelled here by concrete stand-ins that keep exactly the contract the
source relies on:

* `Hash` is an opaque 32-byte value with byte equality: modelled as `Nat`,
  the zero value (`common.Hash{}`) being `0`; `keccak256Hash` is a concrete
  stand-in for the external keccak constructor.
* `PublicKey` is its serialized byte form (`Bytes()` is the identity on the
  carried bytes); `NewNodeID` derives the identifier by hashing the key.
* Go machine integers: `uint32`/`uint64` are `Nat` with explicit `% 2 ^ w`;
  `int` / `time.Duration` are `Int` with explicit two's-complement wrapping.
* `float32` is carried by its IEEE-754 bit pattern (`Float32`); Go float
  comparison (`==`) is `f32Eq`, which distinguishes NaN and the two zeros.
* Go pointers to DKG complaint records matter to the source (the duplicate
  check `tmpComp == comp` compares pointers), so a `Complaint` carries an
  `id` field modelling object identity; the external structural equality
  `Complaint.Equal` (`compEqual`) ignores it.
* The RLP wire form of a batch is a list of `(type ordinal, raw payload)`
  pairs (`Bytes.wellFormed`) or an undecodable byte string
  (`Bytes.malformed`); a raw payload is classified by what it is an
  encoding of (`RawValue`), mirroring the codec's contract that decoding
  into a mismatched type fails, and that RLP integers are typeless
  (a `uint32` and a `uint64` of the same value share an encoding).
-/

/-- Two's-complement wrap of an integer into the `int64` range,
modelling Go's wrapping arithmetic on `time.Duration` / `int64`. -/
def wrap64 (x : Int) : Int := (x + 2 ^ 63) % 2 ^ 64 - 2 ^ 63

/-- Reinterpret a `uint64` value as `int64` (Go's `int(u)` / `time.Duration(u)`
conversion from `uint64`). -/
def u64ToInt64 (v : Nat) : Int := if v < 2 ^ 63 then (v : Int) else (v : Int) - 2 ^ 64

/-- Reinterpret an `int` as `uint64` (Go's `uint64(k)` two's-complement
conversion). -/
def intToU64 (k : Int) : Nat := (k % 2 ^ 64).toNat

/-- A `float32` value, carried by its IEEE-754 bit pattern. -/
structure Float32 where
  bits : Nat
deriving DecidableEq, Repr

/-- `math.Float32frombits`. -/
def f32FromBits (b : Nat) : Float32 := ⟨b % 2 ^ 32⟩

/-- `math.Float32bits`. -/
def f32Bits (f : Float32) : Nat := f.bits

/-- A bit pattern denotes an IEEE-754 single NaN iff its exponent field is
all ones and its fraction field is non-zero. -/
def f32IsNaN (f : Float32) : Bool :=
  decide ((f.bits / 2 ^ 23) % 2 ^ 8 = 255) && decide (¬ f.bits % 2 ^ 23 = 0)

/-- The two IEEE-754 single zeros (+0 and -0). -/
def f32IsZero (f : Float32) : Bool :=
  decide (f.bits = 0) || decide (f.bits = 2 ^ 31)

/-- Go `==` on `float32`: NaN is unequal to everything, +0 equals -0,
every other value compares by bit pattern. -/
def f32Eq (a b : Float32) : Bool :=
  !f32IsNaN a && !f32IsNaN b &&
    (decide (a.bits = b.bits) || (f32IsZero a && f32IsZero b))

/-- The bit pattern of the `float32` literal `0.667` used by `NewState`. -/
def float32Of0667 : Float32 := ⟨0x3F2AC083⟩

/-- Model of the external 32-byte keccak hash constructor
(`crypto.Keccak256Hash`); only determinism and equality of hashes matter
to the source, not the concrete mixing. -/
def keccak256Hash (bs : List Nat) : Nat :=
  bs.foldl (fun acc b => (acc * 131 + b % 256 + 7) % 2 ^ 256) 1

/-- The byte string `"__ DEXON"` hashed to form the genesis CRS. -/
def dexonMagic : List Nat := [95, 95, 32, 68, 69, 88, 79, 78]

/-- An ECDSA public key, modelled by its serialized bytes
(`PublicKey.Bytes()` returns `bytes`). -/
structure PublicKey where
  bytes : List Nat
deriving DecidableEq, Repr

/-- `types.NewNodeID`: the 32-byte node identifier obtained by hashing
a public key. -/
def NewNodeID (key : PublicKey) : Nat := keccak256Hash key.bytes

/-- Model of `ecdsa.NewPublicKeyFromByteSlice`: the external parser accepts
exactly the well-formed serialized keys (33-byte compressed form). -/
def newPublicKeyFromByteSlice (bs : List Nat) : Option PublicKey :=
  if bs.length = 33 then some ⟨bs⟩ else none

/-- First-match lookup in an association list, modelling Go map indexing. -/
def lookupKV {α β : Type} [DecidableEq α] : List (α × β) → α → Option β
  | [], _ => none
  | (k', v') :: rest, k => if k = k' then some v' else lookupKV rest k

/-- Go map assignment `m[k] = v`: overwrite the binding if the key is
present, append it otherwise. -/
def updateKV {α β : Type} [DecidableEq α] : List (α × β) → α → β → List (α × β)
  | [], k, v => [(k, v)]
  | (k', v') :: rest, k, v =>
      if k = k' then (k, v) :: rest else (k', v') :: updateKV rest k v

/-- Two-level lookup in a round-indexed map of per-node maps. -/
def lookup2 {γ : Type} (outer : List (Nat × List (Nat × γ))) (r n : Nat) : Option γ :=
  match lookupKV outer r with
  | none => none
  | some inner => lookupKV inner n

/-- `typesDKG.Complaint`: `round` and `proposerID` are the fields the state
machine reads; `content` models the remaining record fields (private share,
signature); `id` models the Go pointer identity of the record object, which
the duplicate check in `isValidRequest` compares (`tmpComp == comp` is a
pointer comparison). The external structural equality `Complaint.Equal`
ignores `id`. -/
structure Complaint where
  id : Nat
  round : Nat
  proposerID : Nat
  content : Nat
deriving DecidableEq, Repr

/-- External `typesDKG.Complaint.Equal`: structural equality of the
serialized record, blind to object identity. -/
def compEqual (a b : Complaint) : Bool :=
  decide (a.round = b.round) && decide (a.proposerID = b.proposerID) &&
    decide (a.content = b.content)

/-- `typesDKG.MasterPublicKey` (`content` models the key material). -/
structure MasterPublicKey where
  round : Nat
  proposerID : Nat
  content : Nat
deriving DecidableEq, Repr

/-- `typesDKG.Finalize` (`content` models the signature). -/
structure Finalize where
  round : Nat
  proposerID : Nat
  content : Nat
deriving DecidableEq, Repr

/-- `crsAdditionRequest`. -/
structure CrsAdditionRequest where
  round : Nat
  crs : Nat
deriving DecidableEq, Repr

/-- `StateChangeType`: the closed tag set, ordinals 0 through 15. -/
inductive SCT where
  | stateChangeNothing
  | stateAddCRS
  | stateAddDKGComplaint
  | stateAddDKGMasterPublicKey
  | stateAddDKGFinal
  | stateChangeNumChains
  | stateChangeLambdaBA
  | stateChangeLambdaDKG
  | stateChangeRoundInterval
  | stateChangeMinBlockInterval
  | stateChangeMaxBlockInterval
  | stateChangeK
  | stateChangePhiRatio
  | stateChangeNotarySetSize
  | stateChangeDKGSetSize
  | stateAddNode
deriving DecidableEq, Repr

/-- Wire ordinal of a state-change type. -/
def SCT.toNat : SCT → Nat
  | .stateChangeNothing => 0
  | .stateAddCRS => 1
  | .stateAddDKGComplaint => 2
  | .stateAddDKGMasterPublicKey => 3
  | .stateAddDKGFinal => 4
  | .stateChangeNumChains => 5
  | .stateChangeLambdaBA => 6
  | .stateChangeLambdaDKG => 7
  | .stateChangeRoundInterval => 8
  | .stateChangeMinBlockInterval => 9
  | .stateChangeMaxBlockInterval => 10
  | .stateChangeK => 11
  | .stateChangePhiRatio => 12
  | .stateChangeNotarySetSize => 13
  | .stateChangeDKGSetSize => 14
  | .stateAddNode => 15

/-- The error taxonomy of the source (`errors.New` values and the applier's
internal "you are definitely kidding me" error); `decodeError` stands for
any external codec failure, `keyParseError` for an ECDSA parse failure. -/
inductive Err where
  | duplicatedChange
  | forkedCRS
  | missingPreviousCRS
  | unknownStateChangeType
  | proposerIsFinal
  | configNotEqual
  | localFlagNotEqual
  | nodeSetNotEqual
  | dkgComplaintsNotEqual
  | dkgMasterPublicKeysNotEqual
  | dkgFinalsNotEqual
  | crssNotEqual
  | pendingChangesNotEqual
  | decodeError
  | keyParseError
  | kiddingMe
deriving DecidableEq, Repr

/-- The post-coercion payload of a `StateChangeRequest` (the dynamic
`interface{}` value after `RequestChange` patched the caller's input, or
after `unpackPayload` decoded a raw payload): a numeric scalar, serialized
public-key bytes, a CRS addition record, or a DKG record. -/
inductive Payload where
  | uintP (v : Nat)
  | bytesP (bs : List Nat)
  | crsP (r : CrsAdditionRequest)
  | compP (c : Complaint)
  | mpkP (m : MasterPublicKey)
  | finP (f : Finalize)
deriving DecidableEq, Repr

/-- `StateChangeRequest`. -/
structure StateChangeRequest where
  rtype : SCT
  payload : Payload
deriving DecidableEq, Repr

/-- An `rlp.RawValue` payload, classified by what it is a canonical encoding
of. RLP integers are typeless big-endian strings, so one constructor
`uintR` covers `uint32` and `uint64` encodings (decoding checks the range);
`badR` stands for bytes that decode as no payload type at all. -/
inductive RawValue where
  | uintR (v : Nat)
  | bytesR (bs : List Nat)
  | crsR (r : CrsAdditionRequest)
  | compR (c : Complaint)
  | mpkR (m : MasterPublicKey)
  | finR (f : Finalize)
  | badR
deriving DecidableEq, Repr

/-- `rawStateChangeRequest`: the decoded outer pair of a batch element.
The type ordinal is an arbitrary `uint8` on the wire. -/
structure RawStateChangeRequest where
  rtype : Nat
  payload : RawValue
deriving DecidableEq, Repr

/-- A byte slice holding a packed batch: either it decodes as a list of
`rawStateChangeRequest` or the outer decode fails. -/
inductive Bytes where
  | wellFormed (raws : List RawStateChangeRequest)
  | malformed
deriving DecidableEq, Repr

deriving instance DecidableEq for Except

/-- Whether a fallible computation succeeded. -/
def exceptOk {ε α : Type} : Except ε α → Bool
  | .ok _ => true
  | .error _ => false

/-- `State` (`core/test/state.go`). Go maps are modelled as association
lists; `localFlag` is the source's `local` field (a Lean keyword). The
locks guard in-process concurrency only and carry no state. -/
structure State where
  numChains : Nat
  lambdaBA : Int
  lambdaDKG : Int
  k : Int
  phiRatio : Float32
  notarySetSize : Nat
  dkgSetSize : Nat
  roundInterval : Int
  minBlockInterval : Int
  maxBlockInterval : Int
  nodes : List (Nat × PublicKey)
  dkgComplaints : List (Nat × List (Nat × List Complaint))
  dkgMasterPublicKeys : List (Nat × List (Nat × MasterPublicKey))
  dkgFinals : List (Nat × List (Nat × Finalize))
  crs : List Nat
  localFlag : Bool
  pendingChangedConfigs : List (SCT × Payload)
  pendingNodes : List (List Nat)
  pendingDKGComplaints : List Complaint
  pendingDKGFinals : List Finalize
  pendingDKGMasterPublicKeys : List MasterPublicKey
  pendingCRS : List CrsAdditionRequest
deriving DecidableEq, Repr

/-- `NewState`: construct a state with genesis information. The node map is
built by inserting each key under its derived `NodeID` (duplicates
coalesce); the set sizes are `uint32(len(nodes))`. -/
def NewState (nodePubKeys : List PublicKey) (lambda : Int) (localFlag : Bool) : State :=
  let nodes := nodePubKeys.foldl (fun m key => updateKV m (NewNodeID key) key) []
  { numChains := nodes.length % 2 ^ 32
    lambdaBA := lambda
    lambdaDKG := wrap64 (lambda * 10)
    k := 0
    phiRatio := float32Of0667
    notarySetSize := nodes.length % 2 ^ 32
    dkgSetSize := nodes.length % 2 ^ 32
    roundInterval := wrap64 (lambda * 10000)
    minBlockInterval := 1000000
    maxBlockInterval := wrap64 (lambda * 8)
    nodes := nodes
    dkgComplaints := []
    dkgMasterPublicKeys := []
    dkgFinals := []
    crs := [keccak256Hash dexonMagic]
    localFlag := localFlag
    pendingChangedConfigs := []
    pendingNodes := []
    pendingDKGComplaints := []
    pendingDKGFinals := []
    pendingDKGMasterPublicKeys := []
    pendingCRS := [] }

/-- `State.CRS`: the CRS proposed for a round, or the zero hash when the
round is out of range. -/
def State.CRS (s : State) (round : Nat) : Nat :=
  if s.crs.length ≤ round then 0 else s.crs.getD round 0

/-- `State.unpackPayload`: decode a raw payload per the codec table. The
switch covers ordinals 1 through 15; everything else (including ordinal 0,
`StateChangeNothing`) falls to the default arm and is rejected as
`ErrUnknownStateChangeType`. Mismatched or malformed payload bytes fail
with a codec error. -/
def unpackPayload (raw : RawStateChangeRequest) : Except Err StateChangeRequest :=
  if raw.rtype = 1 then
    match raw.payload with
    | .crsR r => .ok ⟨.stateAddCRS, .crsP r⟩
    | _ => .error .decodeError
  else if raw.rtype = 2 then
    match raw.payload with
    | .compR c => .ok ⟨.stateAddDKGComplaint, .compP c⟩
    | _ => .error .decodeError
  else if raw.rtype = 3 then
    match raw.payload with
    | .mpkR m => .ok ⟨.stateAddDKGMasterPublicKey, .mpkP m⟩
    | _ => .error .decodeError
  else if raw.rtype = 4 then
    match raw.payload with
    | .finR f => .ok ⟨.stateAddDKGFinal, .finP f⟩
    | _ => .error .decodeError
  else if raw.rtype = 5 then
    match raw.payload with
    | .uintR v => if v < 2 ^ 32 then .ok ⟨.stateChangeNumChains, .uintP v⟩ else .error .decodeError
    | _ => .error .decodeError
  else if raw.rtype = 6 then
    match raw.payload with
    | .uintR v => if v < 2 ^ 64 then .ok ⟨.stateChangeLambdaBA, .uintP v⟩ else .error .decodeError
    | _ => .error .decodeError
  else if raw.rtype = 7 then
    match raw.payload with
    | .uintR v => if v < 2 ^ 64 then .ok ⟨.stateChangeLambdaDKG, .uintP v⟩ else .error .decodeError
    | _ => .error .decodeError
  else if raw.rtype = 8 then
    match raw.payload with
    | .uintR v => if v < 2 ^ 64 then .ok ⟨.stateChangeRoundInterval, .uintP v⟩ else .error .decodeError
    | _ => .error .decodeError
  else if raw.rtype = 9 then
    match raw.payload with
    | .uintR v => if v < 2 ^ 64 then .ok ⟨.stateChangeMinBlockInterval, .uintP v⟩ else .error .decodeError
    | _ => .error .decodeError
  else if raw.rtype = 10 then
    match raw.payload with
    | .uintR v => if v < 2 ^ 64 then .ok ⟨.stateChangeMaxBlockInterval, .uintP v⟩ else .error .decodeError
    | _ => .error .decodeError
  else if raw.rtype = 11 then
    match raw.payload with
    | .uintR v => if v < 2 ^ 64 then .ok ⟨.stateChangeK, .uintP v⟩ else .error .decodeError
    | _ => .error .decodeError
  else if raw.rtype = 12 then
    match raw.payload with
    | .uintR v => if v < 2 ^ 32 then .ok ⟨.stateChangePhiRatio, .uintP v⟩ else .error .decodeError
    | _ => .error .decodeError
  else if raw.rtype = 13 then
    match raw.payload with
    | .uintR v => if v < 2 ^ 32 then .ok ⟨.stateChangeNotarySetSize, .uintP v⟩ else .error .decodeError
    | _ => .error .decodeError
  else if raw.rtype = 14 then
    match raw.payload with
    | .uintR v => if v < 2 ^ 32 then .ok ⟨.stateChangeDKGSetSize, .uintP v⟩ else .error .decodeError
    | _ => .error .decodeError
  else if raw.rtype = 15 then
    match raw.payload with
    | .bytesR bs => .ok ⟨.stateAddNode, .bytesP bs⟩
    | _ => .error .decodeError
  else
    .error .unknownStateChangeType

/-- The payload-decode loop at the head of `State.Apply`: every element's
payload is unpacked, aborting at the first failure, before anything is
applied. -/
def decodeReqs : List RawStateChangeRequest → Except Err (List StateChangeRequest)
  | [] => .ok []
  | raw :: rest =>
      match unpackPayload raw with
      | .error e => .error e
      | .ok req =>
          match decodeReqs rest with
          | .error e => .error e
          | .ok reqs => .ok (req :: reqs)

/-- The full decode phase of `State.Apply`: outer batch decode
(`rlp.DecodeBytes` into `[]*rawStateChangeRequest`) then the payload loop. -/
def decodePhase : Bytes → Except Err (List StateChangeRequest)
  | .malformed => .error .decodeError
  | .wellFormed raws => decodeReqs raws

/-- Canonical encoding of a post-coercion payload as a raw RLP value. -/
def encodePayload : Payload → RawValue
  | .uintP v => .uintR v
  | .bytesP bs => .bytesR bs
  | .crsP r => .crsR r
  | .compP c => .compR c
  | .mpkP m => .mpkR m
  | .finP f => .finR f

/-- Encoding of one `StateChangeRequest` as a wire pair. -/
def encodeReq (req : StateChangeRequest) : RawStateChangeRequest :=
  ⟨req.rtype.toNat, encodePayload req.payload⟩

/-- `State.isValidRequest`: pre-application validation. The complaint
duplicate check is the source's `tmpComp == comp`, a Go pointer
comparison, modelled as full record identity including the `id` field. -/
def State.isValidRequest (s : State) (req : StateChangeRequest) : Option Err :=
  match req.rtype, req.payload with
  | .stateAddDKGComplaint, .compP comp =>
      if (lookup2 s.dkgFinals comp.round comp.proposerID).isSome then
        some .proposerIsFinal
      else
        match lookupKV s.dkgComplaints comp.round with
        | none => none
        | some compForRound =>
            match lookupKV compForRound comp.proposerID with
            | none => none
            | some comps =>
                if comp ∈ comps then some .duplicatedChange else none
  | .stateAddCRS, .crsP crsReq =>
      if crsReq.round < s.crs.length then
        if ¬ s.crs.getD crsReq.round 0 = crsReq.crs then some .forkedCRS
        else some .duplicatedChange
      else if crsReq.round = s.crs.length then none
      else some .missingPreviousCRS
  | _, _ => none

/-- `State.applyRequest`: deterministic mutation per request type. A
payload whose shape does not match the type would be a Go type-assertion
panic; such pairs never come out of the decoder or `RequestChange`, and
are mapped to `decodeError` here. -/
def State.applyRequest (s : State) (req : StateChangeRequest) : Except Err State :=
  match req.rtype, req.payload with
  | .stateAddNode, .bytesP bs =>
      match newPublicKeyFromByteSlice bs with
      | none => .error .keyParseError
      | some pubKey => .ok { s with nodes := updateKV s.nodes (NewNodeID pubKey) pubKey }
  | .stateAddCRS, .crsP crsRequest =>
      if ¬ crsRequest.round = s.crs.length then .error .duplicatedChange
      else .ok { s with crs := s.crs ++ [crsRequest.crs] }
  | .stateAddDKGComplaint, .compP comp =>
      let compForRound := (lookupKV s.dkgComplaints comp.round).getD []
      let comps := (lookupKV compForRound comp.proposerID).getD []
      .ok { s with dkgComplaints := (updateKV s.dkgComplaints comp.round
        (updateKV compForRound comp.proposerID (comps ++ [comp]))) }
  | .stateAddDKGMasterPublicKey, .mpkP mKey =>
      let mKeysForRound := (lookupKV s.dkgMasterPublicKeys mKey.round).getD []
      .ok { s with dkgMasterPublicKeys := (updateKV s.dkgMasterPublicKeys mKey.round
        (updateKV mKeysForRound mKey.proposerID mKey)) }
  | .stateAddDKGFinal, .finP final =>
      let finalsForRound := (lookupKV s.dkgFinals final.round).getD []
      .ok { s with dkgFinals := (updateKV s.dkgFinals final.round
        (updateKV finalsForRound final.proposerID final)) }
  | .stateChangeNumChains, .uintP v => .ok { s with numChains := v }
  | .stateChangeLambdaBA, .uintP v => .ok { s with lambdaBA := u64ToInt64 v }
  | .stateChangeLambdaDKG, .uintP v => .ok { s with lambdaDKG := u64ToInt64 v }
  | .stateChangeRoundInterval, .uintP v => .ok { s with roundInterval := u64ToInt64 v }
  | .stateChangeMinBlockInterval, .uintP v => .ok { s with minBlockInterval := u64ToInt64 v }
  | .stateChangeMaxBlockInterval, .uintP v => .ok { s with maxBlockInterval := u64ToInt64 v }
  | .stateChangeK, .uintP v => .ok { s with k := u64ToInt64 v }
  | .stateChangePhiRatio, .uintP v => .ok { s with phiRatio := f32FromBits v }
  | .stateChangeNotarySetSize, .uintP v => .ok { s with notarySetSize := v }
  | .stateChangeDKGSetSize, .uintP v => .ok { s with dkgSetSize := v }
  | .stateChangeNothing, _ => .error .kiddingMe
  | _, _ => .error .decodeError

/-- The application loop of `State.Apply`: requests are applied in batch
order; an error aborts the remainder but the already-applied mutations are
retained. -/
def State.applyAll (s : State) : List StateChangeRequest → Option Err × State
  | [] => (none, s)
  | req :: rest =>
      match s.applyRequest req with
      | .error e => (some e, s)
      | .ok s' => s'.applyAll rest

/-- `State.Apply`: decode the batch in full (outer list, then every
payload), then apply each request sequentially. A decode failure returns
before any mutation. -/
def State.Apply (s : State) (reqsAsBytes : Bytes) : Option Err × State :=
  match decodePhase reqsAsBytes with
  | .error e => (some e, s)
  | .ok reqs => s.applyAll reqs

/-- The request list assembled by `State.PackRequests`: drained pending
config changes first, then the pending node, complaint, final,
master-public-key, and CRS sequences in insertion order. -/
def packedList (s : State) : List StateChangeRequest :=
  s.pendingChangedConfigs.map (fun kv => ⟨kv.1, kv.2⟩) ++
    s.pendingNodes.map (fun bs => ⟨.stateAddNode, .bytesP bs⟩) ++
    s.pendingDKGComplaints.map (fun c => ⟨.stateAddDKGComplaint, .compP c⟩) ++
    s.pendingDKGFinals.map (fun f => ⟨.stateAddDKGFinal, .finP f⟩) ++
    s.pendingDKGMasterPublicKeys.map (fun m => ⟨.stateAddDKGMasterPublicKey, .mpkP m⟩) ++
    s.pendingCRS.map (fun r => ⟨.stateAddCRS, .crsP r⟩)

/-- `State.PackRequests`: emit the packed batch and reset the pending
config map; the other pending sequences are not cleared. -/
def State.PackRequests (s : State) : Bytes × State :=
  (.wellFormed ((packedList s).map encodeReq),
    { s with pendingChangedConfigs := [] })

/-- The caller-side payload of `RequestChange`, before the coercion switch
patches it: a public key object, a duration, a signed int, a float32, a
u32 scalar, or a CRS/DKG record. -/
inductive InputPayload where
  | nodeKey (key : PublicKey)
  | duration (d : Int)
  | intVal (k : Int)
  | float (f : Float32)
  | u32Val (v : Nat)
  | crsReqP (r : CrsAdditionRequest)
  | compIP (c : Complaint)
  | mpkIP (m : MasterPublicKey)
  | finIP (f : Finalize)
deriving DecidableEq, Repr

/-- The coercion switch at the head of `RequestChange`: serialize a node
key to bytes, durations and `k` to `uint64`, `phiRatio` to its IEEE-754
bit pattern; everything else passes through. `none` models the Go
type-assertion panic on a payload of the wrong dynamic type. -/
def coercePayload (t : SCT) (p : InputPayload) : Option Payload :=
  match t, p with
  | .stateAddNode, .nodeKey key => some (.bytesP key.bytes)
  | .stateChangeLambdaBA, .duration d => some (.uintP (intToU64 d))
  | .stateChangeLambdaDKG, .duration d => some (.uintP (intToU64 d))
  | .stateChangeRoundInterval, .duration d => some (.uintP (intToU64 d))
  | .stateChangeMinBlockInterval, .duration d => some (.uintP (intToU64 d))
  | .stateChangeMaxBlockInterval, .duration d => some (.uintP (intToU64 d))
  | .stateChangeK, .intVal kv => some (.uintP (intToU64 kv))
  | .stateChangePhiRatio, .float f => some (.uintP (f32Bits f))
  | .stateChangeNumChains, .u32Val v => some (.uintP v)
  | .stateChangeNotarySetSize, .u32Val v => some (.uintP v)
  | .stateChangeDKGSetSize, .u32Val v => some (.uintP v)
  | .stateAddCRS, .crsReqP r => some (.crsP r)
  | .stateAddDKGComplaint, .compIP c => some (.compP c)
  | .stateAddDKGMasterPublicKey, .mpkIP m => some (.mpkP m)
  | .stateAddDKGFinal, .finIP f => some (.finP f)
  | _, _ => none

/-- The pending-buffer dispatch of `RequestChange` in replicated mode:
add-requests append to their sequence, every other type coalesces into the
pending config map (last writer wins). -/
def State.appendPending (s : State) (t : SCT) (payload : Payload) : State :=
  match t, payload with
  | .stateAddNode, .bytesP bs => { s with pendingNodes := s.pendingNodes ++ [bs] }
  | .stateAddCRS, .crsP r => { s with pendingCRS := s.pendingCRS ++ [r] }
  | .stateAddDKGComplaint, .compP c =>
      { s with pendingDKGComplaints := s.pendingDKGComplaints ++ [c] }
  | .stateAddDKGMasterPublicKey, .mpkP m =>
      { s with pendingDKGMasterPublicKeys := s.pendingDKGMasterPublicKeys ++ [m] }
  | .stateAddDKGFinal, .finP f =>
      { s with pendingDKGFinals := s.pendingDKGFinals ++ [f] }
  | _, _ => { s with pendingChangedConfigs := updateKV s.pendingChangedConfigs t payload }

/-- `State.RequestChange`: coerce the payload, validate, then either apply
immediately (local mode) or append to the pending buffers (replicated
mode). Returns the error, if any, with the resulting state. -/
def State.RequestChange (s : State) (t : SCT) (p : InputPayload) : Option Err × State :=
  match coercePayload t p with
  | none => (some .decodeError, s)
  | some payload =>
      let req : StateChangeRequest := ⟨t, payload⟩
      if s.localFlag then
        match s.isValidRequest req with
        | some e => (some e, s)
        | none =>
            match s.applyRequest req with
            | .error e => (some e, s)
            | .ok s' => (none, s')
      else
        match s.isValidRequest req with
        | some e => (some e, s)
        | none => (none, s.appendPending t payload)

/-- `State.ProposeCRS`: convenience wrapper around
`RequestChange(StateAddCRS, …)`. -/
def State.ProposeCRS (s : State) (round : Nat) (crs : Nat) : Option Err × State :=
  s.RequestChange .stateAddCRS (.crsReqP ⟨round, crs⟩)

/-- `State.cloneDKGComplaint`: the source deep-copies a complaint by an
encode/decode round trip through the canonical codec; the round trip is
the identity on record values (a panic on failure cannot occur for records
held by the state). -/
def cloneDKGComplaint (comp : Complaint) : Complaint := comp

/-- `State.cloneDKGMasterPublicKey` (codec round trip, identity on
values). -/
def cloneDKGMasterPublicKey (mpk : MasterPublicKey) : MasterPublicKey := mpk

/-- `State.cloneDKGFinalize` (codec round trip, identity on values). -/
def cloneDKGFinalize (final : Finalize) : Finalize := final

/-- `State.Clone`: deep copy. Every map is rebuilt by iterating the source
map and assigning into a freshly made map; every sequence is rebuilt by
appending (deep-copied) elements to an empty slice. -/
def State.Clone (s : State) : State :=
  { numChains := s.numChains
    lambdaBA := s.lambdaBA
    lambdaDKG := s.lambdaDKG
    k := s.k
    phiRatio := s.phiRatio
    notarySetSize := s.notarySetSize
    dkgSetSize := s.dkgSetSize
    roundInterval := s.roundInterval
    minBlockInterval := s.minBlockInterval
    maxBlockInterval := s.maxBlockInterval
    localFlag := s.localFlag
    nodes := s.nodes.foldl (fun m kv => updateKV m kv.1 kv.2) []
    dkgComplaints := s.dkgComplaints.foldl (fun m kv => updateKV m kv.1
      (kv.2.foldl (fun im ikv => updateKV im ikv.1
        (ikv.2.foldl (fun a comp => a ++ [cloneDKGComplaint comp]) [])) [])) []
    dkgMasterPublicKeys := s.dkgMasterPublicKeys.foldl (fun m kv => updateKV m kv.1
      (kv.2.foldl (fun im ikv => updateKV im ikv.1 (cloneDKGMasterPublicKey ikv.2)) [])) []
    dkgFinals := s.dkgFinals.foldl (fun m kv => updateKV m kv.1
      (kv.2.foldl (fun im ikv => updateKV im ikv.1 (cloneDKGFinalize ikv.2)) [])) []
    crs := s.crs.foldl (fun a c => a ++ [c]) []
    pendingChangedConfigs := s.pendingChangedConfigs.foldl (fun m kv => updateKV m kv.1 kv.2) []
    pendingNodes := s.pendingNodes.foldl (fun a bs => a ++ [bs]) []
    pendingDKGComplaints :=
      s.pendingDKGComplaints.foldl (fun a comp => a ++ [cloneDKGComplaint comp]) []
    pendingDKGFinals :=
      s.pendingDKGFinals.foldl (fun a final => a ++ [cloneDKGFinalize final]) []
    pendingDKGMasterPublicKeys :=
      s.pendingDKGMasterPublicKeys.foldl (fun a mpk => a ++ [cloneDKGMasterPublicKey mpk]) []
    pendingCRS := s.pendingCRS.foldl (fun a req => a ++ [⟨req.round, req.crs⟩]) [] }

/-- Go-map structural comparison as `Equal` performs it: equal sizes, and
every binding of the left map is found in the right map with a value that
the given comparison accepts. -/
def mapEqualBy {β : Type} (eq : β → β → Bool) (a b : List (Nat × β)) : Bool :=
  decide (a.length = b.length) && a.all fun kv =>
    match lookupKV b kv.1 with
    | none => false
    | some o => eq kv.2 o

/-- Index-wise comparison of two complaint sequences by the external
structural equality (insertion order significant). -/
def complaintSeqEqual (cs os : List Complaint) : Bool :=
  decide (cs.length = os.length) && (cs.zip os).all fun p => compEqual p.1 p.2

/-- `reflect.DeepEqual` on the pending config map: same size and the same
deep value under every key. -/
def cfgMapDeepEqual (a b : List (SCT × Payload)) : Bool :=
  decide (a.length = b.length) && a.all fun kv => decide (lookupKV b kv.1 = some kv.2)

/-- `State.Equal`: structural equality, reporting the enumerated error of
the first sub-state that mismatches, `none` when the states agree.
Scalar config fields compare with Go `==` (IEEE semantics for
`phiRatio`). -/
def State.Equal (s other : State) : Option Err :=
  if ¬ (decide (s.numChains = other.numChains) &&
        decide (s.lambdaBA = other.lambdaBA) &&
        decide (s.lambdaDKG = other.lambdaDKG) &&
        decide (s.k = other.k) &&
        f32Eq s.phiRatio other.phiRatio &&
        decide (s.notarySetSize = other.notarySetSize) &&
        decide (s.dkgSetSize = other.dkgSetSize) &&
        decide (s.roundInterval = other.roundInterval) &&
        decide (s.minBlockInterval = other.minBlockInterval) &&
        decide (s.maxBlockInterval = other.maxBlockInterval)) = true then
    some .configNotEqual
  else if ¬ s.localFlag = other.localFlag then
    some .localFlagNotEqual
  else if ¬ mapEqualBy (fun key o => decide (key.bytes = o.bytes))
      s.nodes other.nodes = true then
    some .nodeSetNotEqual
  else if ¬ mapEqualBy (mapEqualBy complaintSeqEqual)
      s.dkgComplaints other.dkgComplaints = true then
    some .dkgComplaintsNotEqual
  else if ¬ mapEqualBy (mapEqualBy (fun m o => decide (m = o)))
      s.dkgMasterPublicKeys other.dkgMasterPublicKeys = true then
    some .dkgMasterPublicKeysNotEqual
  else if ¬ mapEqualBy (mapEqualBy (fun f o => decide (f = o)))
      s.dkgFinals other.dkgFinals = true then
    some .dkgFinalsNotEqual
  else if ¬ s.crs = other.crs then
    some .crssNotEqual
  else if ¬ cfgMapDeepEqual s.pendingChangedConfigs other.pendingChangedConfigs = true then
    some .pendingChangesNotEqual
  else if ¬ s.pendingCRS = other.pendingCRS then
    some .pendingChangesNotEqual
  else if ¬ s.pendingNodes = other.pendingNodes then
    some .pendingChangesNotEqual
  else if ¬ complaintSeqEqual s.pendingDKGComplaints other.pendingDKGComplaints = true then
    some .pendingChangesNotEqual
  else if ¬ (decide (s.pendingDKGFinals.length = other.pendingDKGFinals.length) &&
      (s.pendingDKGFinals.zip other.pendingDKGFinals).all
        fun p => decide (p.1 = p.2)) = true then
    some .pendingChangesNotEqual
  else if ¬ (decide (s.pendingDKGMasterPublicKeys.length =
        other.pendingDKGMasterPublicKeys.length) &&
      (s.pendingDKGMasterPublicKeys.zip other.pendingDKGMasterPublicKeys).all
        fun p => decide (p.1 = p.2)) = true then
    some .pendingChangesNotEqual
  else
    none

/-- Well-formedness of the association-list model of a state: every list
that stands for a Go map binds each key at most once (Go maps cannot do
otherwise). -/
def State.WF (s : State) : Prop :=
  (s.nodes.map Prod.fst).Nodup ∧
  (s.dkgComplaints.map Prod.fst).Nodup ∧
  (∀ kv ∈ s.dkgComplaints, ((kv.2 : List (Nat × List Complaint)).map Prod.fst).Nodup) ∧
  (s.dkgMasterPublicKeys.map Prod.fst).Nodup ∧
  (∀ kv ∈ s.dkgMasterPublicKeys, ((kv.2 : List (Nat × MasterPublicKey)).map Prod.fst).Nodup) ∧
  (s.dkgFinals.map Prod.fst).Nodup ∧
  (∀ kv ∈ s.dkgFinals, ((kv.2 : List (Nat × Finalize)).map Prod.fst).Nodup) ∧
  (s.pendingChangedConfigs.map Prod.fst).Nodup

instance (s : State) : Decidable s.WF := by
  unfold State.WF; infer_instance

theorem lookupKV_self {α β : Type} [DecidableEq α] :
    ∀ (l : List (α × β)), (l.map Prod.fst).Nodup →
      ∀ kv ∈ l, lookupKV l kv.1 = some kv.2 := by
  intro l
  induction l with
  | nil => intro _ kv hkv; cases hkv
  | cons hd tl ih =>
      intro hnd kv hkv
      rw [List.map_cons, List.nodup_cons] at hnd
      rw [List.mem_cons] at hkv
      rcases hkv with hkv | hkv
      · subst hkv
        simp [lookupKV]
      · have hne : ¬ kv.1 = hd.1 := by
          intro hcontra
          exact hnd.1 (hcontra ▸ List.mem_map_of_mem Prod.fst hkv)
        simp only [lookupKV, if_neg hne]
        exact ih hnd.2 kv hkv

theorem updateKV_not_mem {α β : Type} [DecidableEq α] :
    ∀ (l : List (α × β)) (k : α) (v : β), k ∉ l.map Prod.fst →
      updateKV l k v = l ++ [(k, v)] := by
  intro l
  induction l with
  | nil => intro k v _; rfl
  | cons hd tl ih =>
      intro k v hk
      rw [List.map_cons, List.mem_cons] at hk
      push_neg at hk
      simp only [updateKV, if_neg hk.1]
      rw [ih k v hk.2, List.cons_append]

theorem keys_updateKV {α β : Type} [DecidableEq α] :
    ∀ (l : List (α × β)) (k : α) (v : β),
      (updateKV l k v).map Prod.fst =
        if k ∈ l.map Prod.fst then l.map Prod.fst else l.map Prod.fst ++ [k] := by
  intro l
  induction l with
  | nil => intro k v; simp [updateKV]
  | cons hd tl ih =>
      intro k v
      by_cases hk : k = hd.1
      · subst hk
        simp [updateKV]
      · simp only [updateKV, if_neg hk, List.map_cons, ih, List.mem_cons]
        by_cases hmem : k ∈ tl.map Prod.fst
        · rw [if_pos hmem, if_pos (Or.inr hmem)]
        · rw [if_neg hmem, if_neg (by tauto), List.cons_append]

theorem foldl_append_map {α β : Type} (h : α → β) :
    ∀ (l : List α) (acc : List β),
      l.foldl (fun a x => a ++ [h x]) acc = acc ++ l.map h := by
  intro l
  induction l with
  | nil => intro acc; simp
  | cons hd tl ih => intro acc; rw [List.foldl_cons, ih, List.map_cons]; simp

theorem foldl_updateKV_id {α β : Type} [DecidableEq α] (g : β → β) :
    ∀ (l acc : List (α × β)),
      (acc.map Prod.fst ++ l.map Prod.fst).Nodup →
      (∀ kv ∈ l, g kv.2 = kv.2) →
      l.foldl (fun m kv => updateKV m kv.1 (g kv.2)) acc = acc ++ l := by
  intro l
  induction l with
  | nil => intro acc _ _; simp
  | cons hd tl ih =>
      intro acc hnd hg
      have hnotacc : hd.1 ∉ acc.map Prod.fst := by
        rw [List.map_cons, List.nodup_append] at hnd
        intro hmem
        exact hnd.2.2 hmem (List.mem_cons_self hd.1 (tl.map Prod.fst))
      rw [List.foldl_cons, updateKV_not_mem acc hd.1 (g hd.2) hnotacc,
        hg hd (List.mem_cons_self hd tl)]
      have hnd' : ((acc ++ [hd]).map Prod.fst ++ tl.map Prod.fst).Nodup := by
        rw [List.map_append]
        simpa [List.append_assoc] using hnd
      rw [ih (acc ++ [hd]) hnd' (fun kv hkv => hg kv (List.mem_cons_of_mem hd hkv))]
      simp

theorem length_foldl_updateKV {α β γ : Type} [DecidableEq α] (f : γ → α) (val : γ → β) :
    ∀ (ks : List γ) (acc : List (α × β)), (acc.map Prod.fst).Nodup →
      (ks.foldl (fun m x => updateKV m (f x) (val x)) acc).length =
        ((acc.map Prod.fst).toFinset ∪ (ks.map f).toFinset).card := by
  intro ks
  induction ks with
  | nil =>
      intro acc hnd
      simp only [List.foldl_nil, List.map_nil, List.toFinset_nil, Finset.union_empty]
      rw [List.toFinset_card_of_nodup hnd, List.length_map]
  | cons hd tl ih =>
      intro acc hnd
      have hkeys := keys_updateKV acc (f hd) (val hd)
      have hnd' : ((updateKV acc (f hd) (val hd)).map Prod.fst).Nodup := by
        rw [hkeys]
        by_cases hmem : f hd ∈ acc.map Prod.fst
        · rwa [if_pos hmem]
        · rw [if_neg hmem, List.nodup_append]
          refine ⟨hnd, List.nodup_singleton _, ?_⟩
          intro x hx hx'
          rw [List.mem_singleton] at hx'
          exact hmem (hx' ▸ hx)
      rw [List.foldl_cons, ih (updateKV acc (f hd) (val hd)) hnd']
      have htf : ((updateKV acc (f hd) (val hd)).map Prod.fst).toFinset =
          insert (f hd) (acc.map Prod.fst).toFinset := by
        rw [hkeys]
        by_cases hmem : f hd ∈ acc.map Prod.fst
        · rw [if_pos hmem]
          exact (Finset.insert_eq_self.mpr (List.mem_toFinset.mpr hmem)).symm
        · rw [if_neg hmem]
          ext a
          simp [or_comm]
      rw [htf, List.map_cons, List.toFinset_cons, Finset.insert_union,
        Finset.union_insert]

theorem zip_self_all {α : Type} (f : α → α → Bool) :
    ∀ (l : List α), (∀ x ∈ l, f x x = true) →
      (l.zip l).all (fun p => f p.1 p.2) = true := by
  intro l
  induction l with
  | nil => intro _; rfl
  | cons hd tl ih =>
      intro hf
      rw [List.zip_cons_cons, List.all_cons]
      rw [hf hd (List.mem_cons_self hd tl), ih (fun x hx => hf x (List.mem_cons_of_mem hd hx))]
      rfl

theorem compEqual_self (c : Complaint) : compEqual c c = true := by
  simp [compEqual]

theorem map_cloneDKGComplaint (l : List Complaint) : l.map cloneDKGComplaint = l := by
  induction l with
  | nil => rfl
  | cons hd tl ih => rw [List.map_cons, ih]; rfl

theorem map_cloneDKGFinalize (l : List Finalize) : l.map cloneDKGFinalize = l := by
  induction l with
  | nil => rfl
  | cons hd tl ih => rw [List.map_cons, ih]; rfl

theorem map_cloneDKGMasterPublicKey (l : List MasterPublicKey) :
    l.map cloneDKGMasterPublicKey = l := by
  induction l with
  | nil => rfl
  | cons hd tl ih => rw [List.map_cons, ih]; rfl

theorem map_crsAddEta (l : List CrsAdditionRequest) :
    l.map (fun r => (⟨r.round, r.crs⟩ : CrsAdditionRequest)) = l := by
  induction l with
  | nil => rfl
  | cons hd tl ih => rw [List.map_cons, ih]

theorem complaintSeqEqual_self (cs : List Complaint) :
    complaintSeqEqual cs cs = true := by
  unfold complaintSeqEqual
  rw [zip_self_all (fun a b => compEqual a b) cs (fun x _ => compEqual_self x)]
  simp

theorem mapEqualBy_self {β : Type} (eq : β → β → Bool) (l : List (Nat × β))
    (hnd : (l.map Prod.fst).Nodup) (heq : ∀ kv ∈ l, eq kv.2 kv.2 = true) :
    mapEqualBy eq l l = true := by
  unfold mapEqualBy
  rw [Bool.and_eq_true, List.all_eq_true]
  refine ⟨by simp, fun kv hkv => ?_⟩
  rw [lookupKV_self l hnd kv hkv]
  exact heq kv hkv

theorem cfgMapDeepEqual_self (l : List (SCT × Payload))
    (hnd : (l.map Prod.fst).Nodup) : cfgMapDeepEqual l l = true := by
  unfold cfgMapDeepEqual
  rw [Bool.and_eq_true, List.all_eq_true]
  refine ⟨by simp, fun kv hkv => ?_⟩
  rw [lookupKV_self l hnd kv hkv]
  simp

theorem f32Eq_self (f : Float32) (hnan : f32IsNaN f = false) : f32Eq f f = true := by
  simp [f32Eq, hnan]

/-- `Equal` is reflexive on well-formed states whose `phiRatio` is not
NaN. -/
theorem State.equal_self (s : State) (hwf : s.WF) (hnan : f32IsNaN s.phiRatio = false) :
    s.Equal s = none := by
  obtain ⟨h1, h2, h3, h4, h5, h6, h7, h8⟩ := hwf
  have hconf : (decide (s.numChains = s.numChains) &&
      decide (s.lambdaBA = s.lambdaBA) &&
      decide (s.lambdaDKG = s.lambdaDKG) &&
      decide (s.k = s.k) &&
      f32Eq s.phiRatio s.phiRatio &&
      decide (s.notarySetSize = s.notarySetSize) &&
      decide (s.dkgSetSize = s.dkgSetSize) &&
      decide (s.roundInterval = s.roundInterval) &&
      decide (s.minBlockInterval = s.minBlockInterval) &&
      decide (s.maxBlockInterval = s.maxBlockInterval)) = true := by
    simp [f32Eq_self s.phiRatio hnan]
  have hnodes : mapEqualBy (fun key o => decide (key.bytes = o.bytes))
      s.nodes s.nodes = true :=
    mapEqualBy_self _ _ h1 (fun kv _ => by simp)
  have hcompl : mapEqualBy (mapEqualBy complaintSeqEqual)
      s.dkgComplaints s.dkgComplaints = true :=
    mapEqualBy_self _ _ h2 (fun kv hkv =>
      mapEqualBy_self _ _ (h3 kv hkv) (fun ikv _ => complaintSeqEqual_self ikv.2))
  have hmpk : mapEqualBy (mapEqualBy (fun m o => decide (m = o)))
      s.dkgMasterPublicKeys s.dkgMasterPublicKeys = true :=
    mapEqualBy_self _ _ h4 (fun kv hkv =>
      mapEqualBy_self _ _ (h5 kv hkv) (fun ikv _ => by simp))
  have hfin : mapEqualBy (mapEqualBy (fun f o => decide (f = o)))
      s.dkgFinals s.dkgFinals = true :=
    mapEqualBy_self _ _ h6 (fun kv hkv =>
      mapEqualBy_self _ _ (h7 kv hkv) (fun ikv _ => by simp))
  have hcfg : cfgMapDeepEqual s.pendingChangedConfigs s.pendingChangedConfigs = true :=
    cfgMapDeepEqual_self _ h8
  have hpc : complaintSeqEqual s.pendingDKGComplaints s.pendingDKGComplaints = true :=
    complaintSeqEqual_self _
  have hpf : (s.pendingDKGFinals.zip s.pendingDKGFinals).all
      (fun p => decide (p.1 = p.2)) = true :=
    zip_self_all (fun a b : Finalize => decide (a = b)) s.pendingDKGFinals
      (fun x _ => by simp)
  have hpm : (s.pendingDKGMasterPublicKeys.zip s.pendingDKGMasterPublicKeys).all
      (fun p => decide (p.1 = p.2)) = true :=
    zip_self_all (fun a b : MasterPublicKey => decide (a = b)) s.pendingDKGMasterPublicKeys
      (fun x _ => by simp)
  unfold State.Equal
  rw [hconf, hnodes, hcompl, hmpk, hfin, hcfg, hpc, hpf, hpm]
  simp

/-- `Clone` reproduces the state value exactly on well-formed states. -/
theorem State.clone_eq (s : State) (hwf : s.WF) : s.Clone = s := by
  obtain ⟨h1, h2, h3, h4, h5, h6, h7, h8⟩ := hwf
  have hnodes : s.nodes.foldl (fun m kv => updateKV m kv.1 kv.2) [] = s.nodes := by
    simpa using foldl_updateKV_id (fun v => v) s.nodes [] (by simpa using h1)
      (fun kv _ => rfl)
  have hcompl : s.dkgComplaints.foldl (fun m kv => updateKV m kv.1
      (kv.2.foldl (fun im ikv => updateKV im ikv.1
        (ikv.2.foldl (fun a comp => a ++ [cloneDKGComplaint comp]) [])) [])) []
      = s.dkgComplaints := by
    simpa using foldl_updateKV_id
      (fun inner => inner.foldl (fun im ikv => updateKV im ikv.1
        (ikv.2.foldl (fun a comp => a ++ [cloneDKGComplaint comp]) [])) [])
      s.dkgComplaints [] (by simpa using h2)
      (fun kv hkv => by
        simpa using foldl_updateKV_id
          (fun cs => cs.foldl (fun a comp => a ++ [cloneDKGComplaint comp]) [])
          kv.2 [] (by simpa using h3 kv hkv)
          (fun ikv _ => by
            show List.foldl (fun a comp => a ++ [cloneDKGComplaint comp]) [] ikv.2 = ikv.2
            rw [foldl_append_map cloneDKGComplaint, map_cloneDKGComplaint,
              List.nil_append]))
  have hmpk : s.dkgMasterPublicKeys.foldl (fun m kv => updateKV m kv.1
      (kv.2.foldl (fun im ikv => updateKV im ikv.1 (cloneDKGMasterPublicKey ikv.2)) [])) []
      = s.dkgMasterPublicKeys := by
    simpa using foldl_updateKV_id
      (fun inner => inner.foldl
        (fun im ikv => updateKV im ikv.1 (cloneDKGMasterPublicKey ikv.2)) [])
      s.dkgMasterPublicKeys [] (by simpa using h4)
      (fun kv hkv => by
        simpa using foldl_updateKV_id (fun v => v) kv.2 []
          (by simpa using h5 kv hkv) (fun ikv _ => rfl))
  have hfin : s.dkgFinals.foldl (fun m kv => updateKV m kv.1
      (kv.2.foldl (fun im ikv => updateKV im ikv.1 (cloneDKGFinalize ikv.2)) [])) []
      = s.dkgFinals := by
    simpa using foldl_updateKV_id
      (fun inner => inner.foldl
        (fun im ikv => updateKV im ikv.1 (cloneDKGFinalize ikv.2)) [])
      s.dkgFinals [] (by simpa using h6)
      (fun kv hkv => by
        simpa using foldl_updateKV_id (fun v => v) kv.2 []
          (by simpa using h7 kv hkv) (fun ikv _ => rfl))
  have hcfg : s.pendingChangedConfigs.foldl (fun m kv => updateKV m kv.1 kv.2) []
      = s.pendingChangedConfigs := by
    simpa using foldl_updateKV_id (fun v => v) s.pendingChangedConfigs []
      (by simpa using h8) (fun kv _ => rfl)
  unfold State.Clone
  rw [hnodes, hcompl, hmpk, hfin, hcfg, foldl_append_map, foldl_append_map,
    foldl_append_map, foldl_append_map, foldl_append_map, foldl_append_map]
  simp only [List.nil_append, map_cloneDKGComplaint, map_cloneDKGFinalize,
    map_cloneDKGMasterPublicKey, map_crsAddEta, List.map_id']

/-- `applyRequest` neither reads nor writes the pending config map. -/
theorem applyRequest_clearCfg (s : State) (req : StateChangeRequest) :
    State.applyRequest { s with pendingChangedConfigs := [] } req =
      (State.applyRequest s req).map (fun t => { t with pendingChangedConfigs := [] }) := by
  obtain ⟨t, p⟩ := req
  cases t <;> cases p <;>
    simp only [State.applyRequest, Except.map] <;>
    first
      | rfl
      | (split <;> rfl)

/-- The application loop commutes with clearing the pending config map. -/
theorem applyAll_clearCfg :
    ∀ (reqs : List StateChangeRequest) (s : State),
      State.applyAll { s with pendingChangedConfigs := [] } reqs =
        ((State.applyAll s reqs).1,
          { (State.applyAll s reqs).2 with pendingChangedConfigs := [] }) := by
  intro reqs
  induction reqs with
  | nil => intro s; rfl
  | cons req rest ih =>
      intro s
      simp only [State.applyAll, applyRequest_clearCfg]
      cases h : State.applyRequest s req with
      | error e => rfl
      | ok s' => simpa using ih s'

/-- C1: the claim fails on the code. A producer in replicated mode with one
pending config change (`ChangeNumChains 5`): the consumer, a state `Equal`
to the producer's state at pack time, applies the packed bytes
successfully, but `Equal` between the producer's post-pack state and the
consumer's post-apply state reports the config mismatch — packing does not
apply the drained requests to the producer. -/
theorem c1_counterexample :
    let s1 := ((NewState [] 0 false).RequestChange .stateChangeNumChains (.u32Val 5)).2
    s1.Equal s1 = none ∧
    (s1.Apply s1.PackRequests.1).1 = none ∧
    s1.PackRequests.2.Equal (s1.Apply s1.PackRequests.1).2 = some Err.configNotEqual := by
  decide

/-- C1 (amended): for every producer state, applying the packed bytes to
the producer's post-pack state and to the producer's state at pack time
produce the same error outcome and states that agree on every sub-state
except the pending config map, which packing drained. -/
theorem c1_amended (s : State) :
    s.PackRequests.2.Apply s.PackRequests.1 =
      ((s.Apply s.PackRequests.1).1,
        { (s.Apply s.PackRequests.1).2 with pendingChangedConfigs := [] }) := by
  show State.Apply { s with pendingChangedConfigs := [] } s.PackRequests.1 = _
  unfold State.Apply
  cases h : decodePhase s.PackRequests.1 with
  | error e => rfl
  | ok reqs => exact applyAll_clearCfg reqs s

/-- C7: `PackRequests` empties the pending config map, leaves all other
pending sequences untouched, and the packed batch lists the config changes
first, followed by the pending nodes, complaints, finals, master public
keys, and CRS additions, each in insertion order. -/
theorem c7_pack_frame (s : State) :
    s.PackRequests.2.pendingChangedConfigs = [] ∧
    s.PackRequests.2.pendingNodes = s.pendingNodes ∧
    s.PackRequests.2.pendingDKGComplaints = s.pendingDKGComplaints ∧
    s.PackRequests.2.pendingDKGFinals = s.pendingDKGFinals ∧
    s.PackRequests.2.pendingDKGMasterPublicKeys = s.pendingDKGMasterPublicKeys ∧
    s.PackRequests.2.pendingCRS = s.pendingCRS ∧
    s.PackRequests.1 = .wellFormed
      ((s.pendingChangedConfigs.map (fun kv => (⟨kv.1, kv.2⟩ : StateChangeRequest)) ++
        s.pendingNodes.map (fun bs => (⟨.stateAddNode, .bytesP bs⟩ : StateChangeRequest)) ++
        s.pendingDKGComplaints.map
          (fun c => (⟨.stateAddDKGComplaint, .compP c⟩ : StateChangeRequest)) ++
        s.pendingDKGFinals.map
          (fun f => (⟨.stateAddDKGFinal, .finP f⟩ : StateChangeRequest)) ++
        s.pendingDKGMasterPublicKeys.map
          (fun m => (⟨.stateAddDKGMasterPublicKey, .mpkP m⟩ : StateChangeRequest)) ++
        s.pendingCRS.map
          (fun r => (⟨.stateAddCRS, .crsP r⟩ : StateChangeRequest))).map encodeReq) := by
  refine ⟨rfl, rfl, rfl, rfl, rfl, rfl, rfl⟩

/-- C10: if the decode phase of `Apply` fails (malformed outer batch, an
unknown type ordinal, or an undecodable payload), the state is returned
unchanged: all payloads are decoded before any request is applied. -/
theorem c10_decode_atomic (s : State) (bs : Bytes) (e : Err)
    (hdec : decodePhase bs = .error e) :
    s.Apply bs = (some e, s) := by
  unfold State.Apply
  rw [hdec]

/-- Witness for C10 at a concrete input: a batch with the out-of-range
ordinal 16 fails to decode and `Apply` leaves the state untouched. -/
theorem c10_witness :
    decodePhase (.wellFormed [⟨16, .uintR 0⟩]) = .error .unknownStateChangeType ∧
    (NewState [] 0 false).Apply (.wellFormed [⟨16, .uintR 0⟩]) =
      (some .unknownStateChangeType, NewState [] 0 false) :=
  ⟨by decide, c10_decode_atomic (NewState [] 0 false) (.wellFormed [⟨16, .uintR 0⟩])
    .unknownStateChangeType (by decide)⟩

/-- C4: the claim fails on the code. `phiRatio` can become NaN through
`RequestChange(ChangePhiRatio, NaN)`; the clone carries the same bit
pattern, but Go float comparison makes NaN unequal to itself, so
`Clone().Equal(S)` reports the config mismatch instead of nil. -/
theorem c4_counterexample :
    let s1 := ((NewState [] 0 true).RequestChange .stateChangePhiRatio
      (.float ⟨0x7FC00000⟩)).2
    s1.Clone.Equal s1 = some Err.configNotEqual ∧ ¬ s1.Clone.Equal s1 = none := by
  decide

/-- C4 (amended): for every well-formed state, `Clone` reproduces the state
value exactly (so the copy shares no mutable state with the source and
mutating it cannot affect the source), and `Clone().Equal(S)` returns nil
provided `phiRatio` is not NaN. -/
theorem c4_amended (s : State) (hwf : s.WF) :
    s.Clone = s ∧ (f32IsNaN s.phiRatio = false → s.Clone.Equal s = none) := by
  have hc := State.clone_eq s hwf
  exact ⟨hc, fun hnan => by rw [hc]; exact State.equal_self s hwf hnan⟩

/-- Witness for C4 (amended) at a concrete state. -/
theorem c4_witness :
    (NewState [⟨[1, 2, 3]⟩] 5 false).Clone = NewState [⟨[1, 2, 3]⟩] 5 false ∧
    (f32IsNaN (NewState [⟨[1, 2, 3]⟩] 5 false).phiRatio = false →
      (NewState [⟨[1, 2, 3]⟩] 5 false).Clone.Equal (NewState [⟨[1, 2, 3]⟩] 5 false) = none) :=
  c4_amended (NewState [⟨[1, 2, 3]⟩] 5 false) (by decide)

/-- C5: once a Finalize record for `(round, proposer)` is present in
`dkgFinals`, any `AddDKGComplaint` for that pair submitted through
`RequestChange` (either mode) returns `ProposerIsFinal` and leaves the
state — hence the complaint tables — untouched. -/
theorem c5_proposer_final (s : State) (c : Complaint)
    (hfin : (lookup2 s.dkgFinals c.round c.proposerID).isSome = true) :
    s.RequestChange .stateAddDKGComplaint (.compIP c) = (some .proposerIsFinal, s) := by
  cases hl : s.localFlag <;>
    simp [State.RequestChange, coercePayload, State.isValidRequest, hfin, hl]

/-- Witness for C5: finalize `(round 2, proposer 7)` on a fresh local
state, then submit a complaint against that proposer. -/
theorem c5_witness :
    (lookup2 (((NewState [] 0 true).RequestChange .stateAddDKGFinal
        (.finIP ⟨2, 7, 0⟩)).2.dkgFinals) 2 7).isSome = true ∧
    (((NewState [] 0 true).RequestChange .stateAddDKGFinal (.finIP ⟨2, 7, 0⟩)).2.RequestChange
        .stateAddDKGComplaint (.compIP ⟨0, 2, 7, 1⟩)) =
      (some .proposerIsFinal,
        ((NewState [] 0 true).RequestChange .stateAddDKGFinal (.finIP ⟨2, 7, 0⟩)).2) :=
  ⟨by decide, c5_proposer_final _ ⟨0, 2, 7, 1⟩ (by decide)⟩

/-- C6: the claim fails on the code. The duplicate check in
`isValidRequest` is `tmpComp == comp`, a Go pointer comparison: a
complaint structurally identical to a stored one but held in a distinct
object (different `id`) passes validation and is accepted, where the claim
demands `DuplicatedChange`. Here the proposer is not finalized, the stored
complaint `⟨0, 1, 3, 9⟩` is structurally equal to the submitted
`⟨1, 1, 3, 9⟩`, yet `RequestChange` returns no error. -/
theorem c6_counterexample :
    let s1 := ((NewState [] 0 true).RequestChange .stateAddDKGComplaint
      (.compIP ⟨0, 1, 3, 9⟩)).2
    lookup2 s1.dkgFinals 1 3 = none ∧
    compEqual ⟨1, 1, 3, 9⟩ ⟨0, 1, 3, 9⟩ = true ∧
    lookup2 s1.dkgComplaints 1 3 = some [⟨0, 1, 3, 9⟩] ∧
    (s1.RequestChange .stateAddDKGComplaint (.compIP ⟨1, 1, 3, 9⟩)).1 = none := by
  decide

/-- C6 (amended): `DuplicatedChange` is returned exactly on object
identity: when the very complaint object submitted (same identity, not
merely structural equality) is already present in the complaint sequence
for `(round, proposer)` and the proposer is not finalized. -/
theorem c6_amended (s : State) (c : Complaint)
    (compForRound : List (Nat × List Complaint)) (comps : List Complaint)
    (hfin : lookup2 s.dkgFinals c.round c.proposerID = none)
    (hcr : lookupKV s.dkgComplaints c.round = some compForRound)
    (hcs : lookupKV compForRound c.proposerID = some comps)
    (hmem : c ∈ comps) :
    s.RequestChange .stateAddDKGComplaint (.compIP c) = (some .duplicatedChange, s) := by
  cases hl : s.localFlag <;>
    simp [State.RequestChange, coercePayload, State.isValidRequest, hfin, hcr, hcs, hmem, hl]

/-- Witness for C6 (amended): re-submitting the stored complaint object
itself yields `DuplicatedChange`. -/
theorem c6_witness :
    (((NewState [] 0 true).RequestChange .stateAddDKGComplaint
        (.compIP ⟨0, 1, 3, 9⟩)).2.RequestChange .stateAddDKGComplaint
        (.compIP ⟨0, 1, 3, 9⟩)) =
      (some .duplicatedChange,
        ((NewState [] 0 true).RequestChange .stateAddDKGComplaint
          (.compIP ⟨0, 1, 3, 9⟩)).2) :=
  c6_amended _ ⟨0, 1, 3, 9⟩ [(3, [⟨0, 1, 3, 9⟩])] [⟨0, 1, 3, 9⟩]
    (by decide) (by decide) (by decide) (by decide)

/-- C3: the claim fails on the code. `NewState` sets `numChains`,
`notarySetSize`, `dkgSetSize` to the size of the node map, which
deduplicates by derived NodeID: constructing with two identical public
keys yields `numChains = 1`, not `|nodePubKeys| = 2`. -/
theorem c3_counterexample :
    ¬ (NewState [⟨[1]⟩, ⟨[1]⟩] 5 true).numChains =
        ([⟨[1]⟩, ⟨[1]⟩] : List PublicKey).length := by
  decide

/-- C3 (amended): `NewState` derives its config from `lambda` as claimed
(`lambdaDKG = 10·lambda`, `roundInterval = 10000·lambda`,
`maxBlockInterval = 8·lambda` in wrapping `int64` arithmetic,
`minBlockInterval` = 1ms, `phiRatio` = the float32 literal `0.667`,
`k = 0`), the CRS chain holds exactly the genesis entry
`keccak256("__ DEXON")`, and `numChains = notarySetSize = dkgSetSize` is
the number of **distinct** derived NodeIDs of `nodePubKeys`, reduced
`mod 2^32`. -/
theorem c3_amended (ks : List PublicKey) (lambda : Int) (loc : Bool) :
    (NewState ks lambda loc).numChains = (ks.map NewNodeID).toFinset.card % 2 ^ 32 ∧
    (NewState ks lambda loc).notarySetSize = (NewState ks lambda loc).numChains ∧
    (NewState ks lambda loc).dkgSetSize = (NewState ks lambda loc).numChains ∧
    (NewState ks lambda loc).lambdaBA = lambda ∧
    (NewState ks lambda loc).lambdaDKG = wrap64 (lambda * 10) ∧
    (NewState ks lambda loc).roundInterval = wrap64 (lambda * 10000) ∧
    (NewState ks lambda loc).maxBlockInterval = wrap64 (lambda * 8) ∧
    (NewState ks lambda loc).minBlockInterval = 1000000 ∧
    (NewState ks lambda loc).phiRatio = float32Of0667 ∧
    (NewState ks lambda loc).k = 0 ∧
    (NewState ks lambda loc).localFlag = loc ∧
    (NewState ks lambda loc).crs = [keccak256Hash dexonMagic] ∧
    (NewState ks lambda loc).CRS 0 = keccak256Hash dexonMagic := by
  have hlen : (ks.foldl (fun m key => updateKV m (NewNodeID key) key) []).length =
      (ks.map NewNodeID).toFinset.card := by
    have := length_foldl_updateKV NewNodeID (fun key => key) ks [] (by simp)
    simpa using this
  refine ⟨?_, rfl, rfl, rfl, rfl, rfl, rfl, rfl, rfl, rfl, rfl, rfl, rfl⟩
  show (ks.foldl (fun m key => updateKV m (NewNodeID key) key) []).length % 2 ^ 32 = _
  rw [hlen]

/-- C2: the `AddCRS` trichotomy through `RequestChange` in local mode
(`ProposeCRS`). With `L = len(crs)`: a round below `L` yields `ForkedCRS`
when the stored CRS differs and `DuplicatedChange` when it matches, a
round above `L` yields `MissingPreviousCRS`, and round `L` succeeds,
growing the chain by exactly one entry with `CRS(round) = h`
afterwards. -/
theorem c2_addcrs (s : State) (round : Nat) (h : Nat) (hloc : s.localFlag = true) :
    (round < s.crs.length → ¬ s.crs.getD round 0 = h →
      s.ProposeCRS round h = (some .forkedCRS, s)) ∧
    (round < s.crs.length → s.crs.getD round 0 = h →
      s.ProposeCRS round h = (some .duplicatedChange, s)) ∧
    (s.crs.length < round → s.ProposeCRS round h = (some .missingPreviousCRS, s)) ∧
    (round = s.crs.length →
      (s.ProposeCRS round h).1 = none ∧
      (s.ProposeCRS round h).2.crs.length = s.crs.length + 1 ∧
      (s.ProposeCRS round h).2.CRS round = h) := by
  refine ⟨?_, ?_, ?_, ?_⟩
  · intro h1 h2
    rw [List.getD_eq_getElem s.crs 0 h1] at h2
    simp [State.ProposeCRS, State.RequestChange, coercePayload, hloc,
      State.isValidRequest, h1, h2]
  · intro h1 h2
    rw [List.getD_eq_getElem s.crs 0 h1] at h2
    simp [State.ProposeCRS, State.RequestChange, coercePayload, hloc,
      State.isValidRequest, h1, h2]
  · intro h1
    have hnl : ¬ round < s.crs.length := by omega
    have hne : ¬ round = s.crs.length := by omega
    simp [State.ProposeCRS, State.RequestChange, coercePayload, hloc,
      State.isValidRequest, hnl, hne]
  · intro h1
    subst h1
    have hnl : ¬ s.crs.length < s.crs.length := by omega
    have happ : s.ProposeCRS s.crs.length h = (none, { s with crs := s.crs ++ [h] }) := by
      simp [State.ProposeCRS, State.RequestChange, coercePayload, hloc,
        State.isValidRequest, State.applyRequest, hnl]
    refine ⟨by rw [happ], by rw [happ]; simp, ?_⟩
    rw [happ]
    show State.CRS { s with crs := s.crs ++ [h] } s.crs.length = h
    unfold State.CRS
    rw [if_neg (by simp), List.getD_append_right s.crs [h] 0 s.crs.length (le_refl _)]
    simp

/-- Witness for C2 at a concrete state (fresh local state, CRS chain of
length 1, proposing round 1). -/
theorem c2_witness :
    (1 < (NewState [] 1 true).crs.length → ¬ (NewState [] 1 true).crs.getD 1 0 = 42 →
      (NewState [] 1 true).ProposeCRS 1 42 = (some .forkedCRS, NewState [] 1 true)) ∧
    (1 < (NewState [] 1 true).crs.length → (NewState [] 1 true).crs.getD 1 0 = 42 →
      (NewState [] 1 true).ProposeCRS 1 42 = (some .duplicatedChange, NewState [] 1 true)) ∧
    ((NewState [] 1 true).crs.length < 1 →
      (NewState [] 1 true).ProposeCRS 1 42 = (some .missingPreviousCRS, NewState [] 1 true)) ∧
    (1 = (NewState [] 1 true).crs.length →
      ((NewState [] 1 true).ProposeCRS 1 42).1 = none ∧
      ((NewState [] 1 true).ProposeCRS 1 42).2.crs.length = (NewState [] 1 true).crs.length + 1 ∧
      ((NewState [] 1 true).ProposeCRS 1 42).2.CRS 1 = 42) :=
  c2_addcrs (NewState [] 1 true) 1 42 (by decide)

/-- The decoder rejects a batch element with `UnknownStateChangeType`
exactly when its type ordinal falls to the default arm of the switch:
ordinal 0 (`StateChangeNothing`) or anything above 15. -/
theorem unpack_unknown_iff (raw : RawStateChangeRequest) :
    unpackPayload raw = .error .unknownStateChangeType ↔
      (raw.rtype = 0 ∨ 15 < raw.rtype) := by
  obtain ⟨t, p⟩ := raw
  rcases Nat.lt_or_ge t 16 with ht | ht
  · interval_cases t <;> cases p <;>
      simp [unpackPayload] <;>
      (split <;> simp)
  · have h1 : ¬ t = 1 := by omega
    have h2 : ¬ t = 2 := by omega
    have h3 : ¬ t = 3 := by omega
    have h4 : ¬ t = 4 := by omega
    have h5 : ¬ t = 5 := by omega
    have h6 : ¬ t = 6 := by omega
    have h7 : ¬ t = 7 := by omega
    have h8 : ¬ t = 8 := by omega
    have h9 : ¬ t = 9 := by omega
    have h10 : ¬ t = 10 := by omega
    have h11 : ¬ t = 11 := by omega
    have h12 : ¬ t = 12 := by omega
    have h13 : ¬ t = 13 := by omega
    have h14 : ¬ t = 14 := by omega
    have h15 : ¬ t = 15 := by omega
    simp only [unpackPayload, if_neg h1, if_neg h2, if_neg h3, if_neg h4, if_neg h5,
      if_neg h6, if_neg h7, if_neg h8, if_neg h9, if_neg h10, if_neg h11, if_neg h12,
      if_neg h13, if_neg h14, if_neg h15]
    simp only [true_iff, eq_self_iff_true]
    omega

theorem exceptOk_if_uint {B : Nat} (v : Nat) (t : SCT) :
    exceptOk ((if v < B then .ok ⟨t, .uintP v⟩
        else .error .decodeError : Except Err StateChangeRequest)) = true ∨
      (if v < B then .ok ⟨t, .uintP v⟩
        else .error .decodeError : Except Err StateChangeRequest) =
          .error .decodeError := by
  split
  · left; rfl
  · right; rfl

/-- For an in-switch ordinal (1 through 15) the payload is decoded per the
codec table: the element either decodes successfully or fails with a
payload codec error, never with `UnknownStateChangeType`. -/
theorem unpack_ok_of_inset (raw : RawStateChangeRequest)
    (hlo : 1 ≤ raw.rtype) (hhi : raw.rtype ≤ 15) :
    exceptOk (unpackPayload raw) = true ∨ unpackPayload raw = .error .decodeError := by
  obtain ⟨t, p⟩ := raw
  dsimp only at hlo hhi
  interval_cases t <;> cases p <;>
    first
      | (left; rfl)
      | (right; rfl)
      | (exact exceptOk_if_uint _ _)

/-- The payload-decode loop of `Apply` reports `UnknownStateChangeType`
exactly when the batch splits into a prefix of elements whose payloads
decode successfully followed by an element whose type ordinal falls
outside the switch (0 or above 15). -/
theorem decodeReqs_unknown_iff :
    ∀ raws, decodeReqs raws = .error .unknownStateChangeType ↔
      ∃ l1 r l2, raws = l1 ++ r :: l2 ∧
        (∀ x ∈ l1, exceptOk (unpackPayload x) = true) ∧
        (r.rtype = 0 ∨ 15 < r.rtype) := by
  intro raws
  induction raws with
  | nil =>
      simp only [decodeReqs]
      constructor
      · intro hcontra; cases hcontra
      · rintro ⟨l1, r, l2, heq, -, -⟩
        cases l1 <;> simp at heq
  | cons raw rest ih =>
      constructor
      · intro hld
        simp only [decodeReqs] at hld
        cases hu : unpackPayload raw with
        | error e =>
            rw [hu] at hld
            have he : e = .unknownStateChangeType := by
              cases hld; rfl
            subst he
            exact ⟨[], raw, rest, rfl, by simp, (unpack_unknown_iff raw).mp hu⟩
        | ok req =>
            rw [hu] at hld
            cases hd : decodeReqs rest with
            | error e' =>
                rw [hd] at hld
                have he : e' = .unknownStateChangeType := by
                  cases hld; rfl
                subst he
                obtain ⟨l1, r, l2, heq, hok, hty⟩ := ih.mp hd
                exact ⟨raw :: l1, r, l2, by rw [heq, List.cons_append], fun x hx => by
                  rcases List.mem_cons.mp hx with hx | hx
                  · subst hx; rw [hu]; rfl
                  · exact hok x hx, hty⟩
            | ok reqs => rw [hd] at hld; cases hld
      · rintro ⟨l1, r, l2, heq, hok, hty⟩
        cases l1 with
        | nil =>
            rw [List.nil_append] at heq
            have hr : raw = r := by
              injection heq with hh _
            have hrest : rest = l2 := by
              injection heq with _ hh
            have hu : unpackPayload raw = .error .unknownStateChangeType :=
              (unpack_unknown_iff raw).mpr (hr ▸ hty)
            simp only [decodeReqs, hu]
        | cons a l1' =>
            rw [List.cons_append] at heq
            have hr : raw = a := by injection heq with hh _
            have hrest : rest = l1' ++ r :: l2 := by injection heq with _ hh
            have hua : exceptOk (unpackPayload raw) = true := by
              rw [hr]; exact hok a (List.mem_cons_self a l1')
            have hrec : decodeReqs rest = .error .unknownStateChangeType :=
              ih.mpr ⟨l1', r, l2, hrest, fun x hx => hok x (List.mem_cons_of_mem a hx), hty⟩
            cases hu : unpackPayload raw with
            | error e => rw [hu] at hua; cases hua
            | ok req => simp only [decodeReqs, hu, hrec]

/-- C8: the claim fails on the code. Ordinal 0 (`StateChangeNothing`) is
inside the enumerated closed set 0 through 15, yet the decoder's switch
has no case for it: a batch whose only element carries ordinal 0 is
rejected with `UnknownStateChangeType` although no element carries an
ordinal outside the set. -/
theorem c8_counterexample :
    decodeReqs [⟨0, .uintR 5⟩] = .error .unknownStateChangeType ∧
    (∀ raw ∈ ([⟨0, .uintR 5⟩] : List RawStateChangeRequest), raw.rtype ≤ 15) := by
  decide

/-- C8 (amended): decoding a batch reports `UnknownStateChangeType` exactly
when the batch splits into a prefix of elements whose payloads decode
successfully followed by an element whose ordinal falls outside the
decoder's switch — ordinal 0 (`StateChangeNothing`) or anything above 15;
for ordinals 1 through 15 the payload is decoded per the codec table,
yielding either a decoded request or a payload codec error. -/
theorem c8_amended (raws : List RawStateChangeRequest) (raw : RawStateChangeRequest) :
    (decodeReqs raws = .error .unknownStateChangeType ↔
      ∃ l1 r l2, raws = l1 ++ r :: l2 ∧
        (∀ x ∈ l1, exceptOk (unpackPayload x) = true) ∧
        (r.rtype = 0 ∨ 15 < r.rtype)) ∧
    (1 ≤ raw.rtype → raw.rtype ≤ 15 →
      (exceptOk (unpackPayload raw) = true ∨ unpackPayload raw = .error .decodeError)) :=
  ⟨decodeReqs_unknown_iff raws, fun hlo hhi => unpack_ok_of_inset raw hlo hhi⟩

/-- Witness for C8 (amended) at concrete inputs: a batch with one good
element then ordinal 20 decodes to `UnknownStateChangeType`, and the
in-set element `(5, uint 3)` decodes per the table. -/
theorem c8_witness :
    decodeReqs [⟨1, .crsR ⟨0, 9⟩⟩, ⟨20, .badR⟩] = .error .unknownStateChangeType ∧
    (exceptOk (unpackPayload ⟨5, .uintR 3⟩) = true ∨
      unpackPayload ⟨5, .uintR 3⟩ = .error .decodeError) := by
  constructor
  · exact (c8_amended [⟨1, .crsR ⟨0, 9⟩⟩, ⟨20, .badR⟩] ⟨5, .uintR 3⟩).1.mpr
      ⟨[⟨1, .crsR ⟨0, 9⟩⟩], ⟨20, .badR⟩, [], by decide, by decide, by decide⟩
  · exact (c8_amended [] ⟨5, .uintR 3⟩).2 (by decide) (by decide)

/-- `uint64(int)` then `int(uint64)` round-trips through two's complement
for every value in the `int64` range. -/
theorem u64_int_roundtrip (kv : Int) (h1 : -(2 ^ 63) ≤ kv) (h2 : kv < 2 ^ 63) :
    u64ToInt64 (intToU64 kv) = kv := by
  unfold u64ToInt64 intToU64
  split <;> omega

/-- `intToU64` always lands in the `uint64` range. -/
theorem intToU64_lt (kv : Int) : intToU64 kv < 2 ^ 64 := by
  unfold intToU64
  omega

/-- C9: `RequestChange(ChangePhiRatio, f)` stores the IEEE-754 bit pattern
of `f` as a u32 in the pending config map; `RequestChange(ChangeK, k)`
stores the two's-complement `uint64` reinterpretation; packing the two and
applying the batch on any state restores a `phiRatio` bit-identical to `f`
and the original signed `k`. -/
theorem c9_roundtrip (ks : List PublicKey) (lambda : Int) (f : Float32) (kval : Int)
    (t : State) (hf : f.bits < 2 ^ 32) (hk1 : -(2 ^ 63) ≤ kval) (hk2 : kval < 2 ^ 63) :
    ((NewState ks lambda false).RequestChange .stateChangePhiRatio
        (.float f)).2.pendingChangedConfigs =
      [(.stateChangePhiRatio, .uintP (f32Bits f))] ∧
    (((NewState ks lambda false).RequestChange .stateChangePhiRatio
        (.float f)).2.RequestChange .stateChangeK (.intVal kval)).2.pendingChangedConfigs =
      [(.stateChangePhiRatio, .uintP (f32Bits f)), (.stateChangeK, .uintP (intToU64 kval))] ∧
    t.Apply ((((NewState ks lambda false).RequestChange .stateChangePhiRatio
        (.float f)).2.RequestChange .stateChangeK (.intVal kval)).2.PackRequests.1) =
      (none, { t with phiRatio := f, k := kval }) := by
  have hf' : f.bits < 4294967296 := by omega
  have hku : intToU64 kval < 18446744073709551616 := by
    have := intToU64_lt kval
    omega
  have hd1 : unpackPayload ⟨12, .uintR (f32Bits f)⟩ =
      .ok ⟨.stateChangePhiRatio, .uintP (f32Bits f)⟩ := by
    simp [unpackPayload, f32Bits, hf']
  have hd2 : unpackPayload ⟨11, .uintR (intToU64 kval)⟩ =
      .ok ⟨.stateChangeK, .uintP (intToU64 kval)⟩ := by
    simp [unpackPayload, hku]
  have hdec : decodePhase (Bytes.wellFormed
      [⟨12, .uintR (f32Bits f)⟩, ⟨11, .uintR (intToU64 kval)⟩]) =
      .ok [⟨.stateChangePhiRatio, .uintP (f32Bits f)⟩,
        ⟨.stateChangeK, .uintP (intToU64 kval)⟩] := by
    simp only [decodePhase, decodeReqs, hd1, hd2]
  have hfb : f32FromBits (f32Bits f) = f := by
    cases f with
    | mk b =>
        unfold f32FromBits f32Bits
        rw [Nat.mod_eq_of_lt hf]
  have hb : (((NewState ks lambda false).RequestChange .stateChangePhiRatio
      (.float f)).2.RequestChange .stateChangeK (.intVal kval)).2.PackRequests.1 =
      Bytes.wellFormed [⟨12, .uintR (f32Bits f)⟩, ⟨11, .uintR (intToU64 kval)⟩] := rfl
  refine ⟨rfl, rfl, ?_⟩
  rw [hb]
  show State.Apply t _ = _
  unfold State.Apply
  rw [hdec]
  simp only [State.applyAll, State.applyRequest]
  rw [u64_int_roundtrip kval hk1 hk2, hfb]

/-- Witness for C9 at concrete inputs: the bit pattern of the float32
literal `0.333` and `k = -5` round-trip through pack and apply on a fresh
local state. -/
theorem c9_witness :
    ((NewState [] 0 false).RequestChange .stateChangePhiRatio
        (.float ⟨0x3EAA7EFA⟩)).2.pendingChangedConfigs =
      [(.stateChangePhiRatio, .uintP (f32Bits ⟨0x3EAA7EFA⟩))] ∧
    (((NewState [] 0 false).RequestChange .stateChangePhiRatio
        (.float ⟨0x3EAA7EFA⟩)).2.RequestChange .stateChangeK (.intVal (-5))).2.pendingChangedConfigs =
      [(.stateChangePhiRatio, .uintP (f32Bits ⟨0x3EAA7EFA⟩)),
        (.stateChangeK, .uintP (intToU64 (-5)))] ∧
    (NewState [] 7 true).Apply ((((NewState [] 0 false).RequestChange .stateChangePhiRatio
        (.float ⟨0x3EAA7EFA⟩)).2.RequestChange .stateChangeK (.intVal (-5))).2.PackRequests.1) =
      (none, { NewState [] 7 true with phiRatio := ⟨0x3EAA7EFA⟩, k := -5 }) :=
  c9_roundtrip [] 0 ⟨0x3EAA7EFA⟩ (-5) (NewState [] 7 true)
    (by decide) (by decide) (by decide)
